import Mathlib

/-!
Shallow embedding of the Lumen chat server's room/session coordinator
(`src/server.js`) and proofs about its behaviour.

Modelling conventions:
* JS `Map` objects (`users`, `rooms`, `socketToUser`, `userMessageCounts`,
  `userFileCounts`) become insertion-ordered association lists
  (`List (String × α)`), with `mapGet`/`mapSet`/`mapDelete` mirroring
  `Map.get`/`Map.set`/`Map.delete`, including JS `Map`'s property that
  `set` on an existing key keeps the entry at its original position.
* JS `Set` objects (`room.members`) become duplicate-free insertion-ordered
  `List String` with `setHas`/`setAdd`/`setDelete`; `members.values().next().value`
  (used for leadership reassignment) is the head of that list.
* `Date.now()` / `new Date()` become an explicit `now : Nat` parameter
  (milliseconds).
* Each socket.io handler becomes a function
  `ServerState → ... → ServerState × List Emit`, where `Emit` records the
  `socket.emit` / `io.to(...)` / `socket.to(room)` calls the handler performs,
  in order.
* `bcryptjs` is an external library; it is modelled by an abstract digest
  where `bcryptHash` is the identity and `bcryptCompare` is string equality,
  which preserves the contract `compare(p, hash(p)) = true` (and, absent
  collisions, `compare(p, hash(q)) = false` for `p ≠ q`).
* JS numbers appearing in payloads (`maxMembers`, `fileSize`, `totalChunks`)
  are modelled as `Int`; a missing/`undefined`/`NaN` value of `maxMembers` is
  collapsed to `0`, matching its JS falsiness in `maxMembers || MAX_ROOM_MEMBERS`.
-/

/-- Association-list lookup mirroring JS `Map.get` (first matching key;
keys are unique in every reachable state). -/
def mapGet {α : Type} : List (String × α) → String → Option α
  | [], _ => none
  | (a, b) :: tl, k => if a = k then some b else mapGet tl k

/-- Association-list update mirroring JS `Map.set`: replaces in place when the
key is present (keeping its position), appends otherwise. -/
def mapSet {α : Type} : List (String × α) → String → α → List (String × α)
  | [], k, v => [(k, v)]
  | (a, b) :: tl, k, v => if a = k then (a, v) :: tl else (a, b) :: mapSet tl k v

/-- Association-list removal mirroring JS `Map.delete`. -/
def mapDelete {α : Type} : List (String × α) → String → List (String × α)
  | [], _ => []
  | (a, b) :: tl, k => if a = k then mapDelete tl k else (a, b) :: mapDelete tl k

/-- JS `Set.has`. -/
def setHas : List String → String → Bool
  | [], _ => false
  | y :: tl, x => if y = x then true else setHas tl x

/-- JS `Set.add`: appends unless already present. -/
def setAdd (s : List String) (x : String) : List String :=
  if setHas s x then s else s ++ [x]

/-- JS `Set.delete`. -/
def setDelete : List String → String → List String
  | [], _ => []
  | y :: tl, x => if y = x then setDelete tl x else y :: setDelete tl x

/-- The `escapeHtml` helper of `src/server.js` (lines 642-651): replaces the
five characters `&` `<` `>` `"` `'` (code points 38, 60, 62, 34, 39) by their
HTML entities. -/
def escapeChar (c : Char) : String :=
  if c.toNat = 38 then "&amp;"
  else if c.toNat = 60 then "&lt;"
  else if c.toNat = 62 then "&gt;"
  else if c.toNat = 34 then "&quot;"
  else if c.toNat = 39 then "&#039;"
  else String.singleton c

/-- String-level `escapeHtml`. -/
def escapeHtml (s : String) : String :=
  String.join (s.toList.map escapeChar)

/-- Abstract model of `bcrypt.hash` (external library): the digest of a PIN. -/
def bcryptHash (pin : String) : String := pin

/-- Abstract model of `bcrypt.compare` (external library): true exactly on the
digest produced from the same PIN. -/
def bcryptCompare (pin digest : String) : Bool := pin = digest

/-- JS truthiness of an optional string payload field (`undefined` and `""`
are falsy). -/
def strTruthy : Option String → Bool
  | none => false
  | some s => s ≠ ""

/-- A connected user record (`users` map values, `src/server.js` lines 69-76). -/
structure User where
  id : String
  name : String
  avatarUrl : Option String
  socketId : String
  joinedAt : Nat
  lastSeen : Nat
deriving Repr, DecidableEq

/-- A room record (`rooms` map values, `src/server.js` lines 148-157). -/
structure Room where
  id : String
  name : String
  isPrivate : Bool
  pinHash : Option String
  leadUserId : String
  members : List String
  maxMembers : Int
  createdAt : Nat
deriving Repr, DecidableEq

/-- A rate-limiter window entry (`{ count, resetTime }`,
`src/server.js` lines 662-665). -/
structure RateEntry where
  count : Nat
  resetTime : Nat
deriving Repr, DecidableEq

/-- The server's shared in-memory state (`src/server.js` lines 24-39).
`userSessions` is written but never read by any handler logic, so it is
omitted. -/
structure ServerState where
  users : List (String × User)
  rooms : List (String × Room)
  socketToUser : List (String × String)
  msgCounts : List (String × RateEntry)
  fileCounts : List (String × RateEntry)
deriving Repr, DecidableEq

/-- One outbound emission performed by a handler, in source order:
`socket.emit('error', ...)`, `socket.emit(event, ...)`, `io.to(sock).emit`,
`socket.to(roomId).emit`, `io.to(roomId).emit`, and the two global
broadcast helpers. -/
inductive Emit where
  | errToSender (message : String)
  | evtToSender (event : String)
  | evtToSocket (sock : String) (event : String)
  | evtToRoomExceptSender (roomId : String) (event : String)
  | evtToRoom (roomId : String) (event : String)
  | userListBroadcast
  | roomListBroadcast
deriving Repr, DecidableEq

/-- Configuration constant `MAX_ROOM_MEMBERS` (line 31). -/
def MAX_ROOM_MEMBERS : Int := 50

/-- Configuration constant `MAX_ROOMS_PER_USER` (line 32). -/
def MAX_ROOMS_PER_USER : Nat := 10

/-- Configuration constant `MESSAGE_RATE_LIMIT` (line 34). -/
def MESSAGE_RATE_LIMIT : Nat := 10

/-- Configuration constant `FILE_RATE_LIMIT` (line 35). -/
def FILE_RATE_LIMIT : Nat := 5

/-- File-size ceiling `MAX_FILE_SIZE = 50 * 1024 * 1024` (line 449). -/
def MAX_FILE_SIZE : Int := 50 * 1024 * 1024

/-- The `checkRateLimit` helper (`src/server.js` lines 653-675), acting on one
of the two count maps: returns the boolean result together with the updated
map. Resets (count 1, window `now + 60000`) when there is no entry or
`now > resetTime`; denies without mutation at `count ≥ limit`; otherwise
increments. -/
def checkRateLimit (counts : List (String × RateEntry)) (userId : String)
    (limit : Nat) (now : Nat) : Bool × List (String × RateEntry) :=
  match mapGet counts userId with
  | none => (true, mapSet counts userId ⟨1, now + 60000⟩)
  | some e =>
    if now > e.resetTime then
      (true, mapSet counts userId ⟨1, now + 60000⟩)
    else if e.count ≥ limit then
      (false, counts)
    else
      (true, mapSet counts userId ⟨e.count + 1, e.resetTime⟩)

/-- One member entry of a serialized room (`src/server.js` lines 688-693). -/
structure SerializedMember where
  id : String
  name : String
  avatarUrl : Option String
  lastSeen : Nat
deriving Repr, DecidableEq

/-- The client-visible room snapshot produced by `serializeRoom`
(`src/server.js` lines 677-696). Note there is no PIN field. -/
structure SerializedRoom where
  id : String
  name : String
  isPrivate : Bool
  leadUserId : String
  maxMembers : Int
  memberCount : Nat
  createdAt : Nat
  members : List SerializedMember
deriving Repr, DecidableEq

/-- The `serializeRoom` helper (`src/server.js` lines 677-696): copies the
public fields, reports `memberCount` as the size of the member set, and maps
member ids through the `users` registry, dropping (`filter(Boolean)`) ids
that do not resolve. -/
def serializeRoom (users : List (String × User)) (room : Room) : SerializedRoom :=
  { id := room.id
    name := room.name
    isPrivate := room.isPrivate
    leadUserId := room.leadUserId
    maxMembers := room.maxMembers
    memberCount := room.members.length
    createdAt := room.createdAt
    members := room.members.filterMap (fun userId =>
      (mapGet users userId).map (fun u =>
        { id := u.id, name := u.name, avatarUrl := u.avatarUrl,
          lastSeen := u.lastSeen })) }

/-- Payload of `room:create` (line 126). A JS-falsy `maxMembers`
(`undefined`, `0`, `NaN`) is modelled as `0`. -/
structure CreatePayload where
  name : String
  isPrivate : Bool
  pin : Option String
  maxMembers : Int
deriving Repr, DecidableEq

/-- The `maxMembers` computation of `room:create` (line 155):
`Math.min(maxMembers || MAX_ROOM_MEMBERS, MAX_ROOM_MEMBERS)`. -/
def clampMaxMembers (requested : Int) : Int :=
  min (if requested = 0 then MAX_ROOM_MEMBERS else requested) MAX_ROOM_MEMBERS

/-- The `room:create` handler (`src/server.js` lines 126-170). `newRoomId`
stands for the freshly generated `uuidv4()`; `now` for `new Date()`. -/
def roomCreate (st : ServerState) (sock : String) (p : CreatePayload)
    (newRoomId : String) (now : Nat) : ServerState × List Emit :=
  match mapGet st.socketToUser sock with
  | none => (st, [.errToSender "User not found"])
  | some userId =>
    if (mapGet st.users userId).isNone then
      (st, [.errToSender "User not found"])
    else if MAX_ROOMS_PER_USER ≤
        ((st.rooms.map Prod.snd).filter (fun r => r.leadUserId = userId)).length then
      (st, [.errToSender "You can only create up to 10 rooms"])
    else
      let pinHash := if p.isPrivate && strTruthy p.pin
                     then some (bcryptHash (p.pin.getD "")) else none
      let room : Room :=
        { id := newRoomId
          name := escapeHtml p.name
          isPrivate := p.isPrivate
          pinHash := pinHash
          leadUserId := userId
          members := [userId]
          maxMembers := clampMaxMembers p.maxMembers
          createdAt := now }
      ({ st with rooms := mapSet st.rooms newRoomId room },
       [.evtToSender "room:created", .roomListBroadcast])

/-- Update a user's `lastSeen` field if the user exists
(`user.lastSeen = new Date()`). -/
def updateLastSeen (users : List (String × User)) (userId : String)
    (now : Nat) : List (String × User) :=
  match mapGet users userId with
  | none => users
  | some u => mapSet users userId { u with lastSeen := now }

/-- Payload of `room:join` (line 173). -/
structure JoinPayload where
  roomId : String
  pin : Option String
deriving Repr, DecidableEq

/-- The `room:join` handler (`src/server.js` lines 173-225): user check, room
lookup, Full check, AlreadyMember check, PIN check for private rooms, then
membership insertion and notifications. -/
def roomJoin (st : ServerState) (sock : String) (p : JoinPayload)
    (now : Nat) : ServerState × List Emit :=
  match mapGet st.socketToUser sock with
  | none => (st, [.errToSender "User not found"])
  | some userId =>
    if (mapGet st.users userId).isNone then
      (st, [.errToSender "User not found"])
    else
      match mapGet st.rooms p.roomId with
      | none => (st, [.errToSender "Room not found"])
      | some room =>
        if room.maxMembers ≤ (room.members.length : Int) then
          (st, [.errToSender "Room is full"])
        else if setHas room.members userId then
          (st, [.errToSender "You are already in this room"])
        else if room.isPrivate && room.pinHash.isSome &&
            !(strTruthy p.pin && bcryptCompare (p.pin.getD "") (room.pinHash.getD "")) then
          (st, [.errToSender "Invalid PIN"])
        else
          let room2 := { room with members := setAdd room.members userId }
          ({ st with rooms := mapSet st.rooms p.roomId room2,
                     users := updateLastSeen st.users userId now },
           [.evtToSender "room:joined", .evtToRoomExceptSender p.roomId "room:update"])

/-- The `room:joinByPin` handler (`src/server.js` lines 228-266): scans the
room directory in insertion order for the first private room whose digest
matches the PIN and adds the user to it. Note the source performs no
capacity (Full) check and no AlreadyMember check on this path. -/
def roomJoinByPin (st : ServerState) (sock : String) (pin : Option String) :
    ServerState × List Emit :=
  match mapGet st.socketToUser sock with
  | none => (st, [.errToSender "User not found"])
  | some userId =>
    if (mapGet st.users userId).isNone then
      (st, [.errToSender "User not found"])
    else if !strTruthy pin then
      (st, [.errToSender "PIN is required"])
    else
      match st.rooms.find? (fun q =>
          q.2.isPrivate && q.2.pinHash.isSome &&
          bcryptCompare (pin.getD "") (q.2.pinHash.getD "")) with
      | none => (st, [.errToSender "Invalid PIN or room not found"])
      | some (rid, room) =>
        let room2 := { room with members := setAdd room.members userId }
        ({ st with rooms := mapSet st.rooms rid room2 },
         [.evtToSender "room:joined", .evtToRoomExceptSender rid "room:update",
          .roomListBroadcast])

/-- The `room:kick` handler (`src/server.js` lines 269-293): only the room
lead may kick; the target is removed from the member set. Note the source
neither deletes the room when the member set becomes empty nor reassigns
leadership when the lead removes themself. -/
def roomKick (st : ServerState) (sock roomId targetUserId : String) :
    ServerState × List Emit :=
  let userId? := mapGet st.socketToUser sock
  match mapGet st.rooms roomId with
  | none => (st, [.errToSender "Unauthorized"])
  | some room =>
    if userId? ≠ some room.leadUserId then
      (st, [.errToSender "Unauthorized"])
    else if setHas room.members targetUserId then
      let room2 := { room with members := setDelete room.members targetUserId }
      let kicked := match mapGet st.users targetUserId with
        | some tu => [Emit.evtToSocket tu.socketId "room:kicked"]
        | none => []
      ({ st with rooms := mapSet st.rooms roomId room2 },
       kicked ++ [.evtToRoomExceptSender roomId "room:update"])
    else
      (st, [])

/-- The `room:list:request` handler (`src/server.js` lines 297-311). -/
def roomListRequest (st : ServerState) (sock : String) :
    ServerState × List Emit :=
  match mapGet st.socketToUser sock with
  | none => (st, [.errToSender "User not found"])
  | some userId =>
    if (mapGet st.users userId).isNone then
      (st, [.errToSender "User not found"])
    else
      (st, [.evtToSender "room:list"])

/-- The `room:leave` handler (`src/server.js` lines 314-337): silent when the
room is absent or the caller is not a member; otherwise removes the member,
deletes the room if now empty, else reassigns leadership to the first
remaining member (`members.values().next().value`) when the leaver led. -/
def roomLeave (st : ServerState) (sock roomId : String) :
    ServerState × List Emit :=
  let userId? := mapGet st.socketToUser sock
  match mapGet st.rooms roomId with
  | none => (st, [])
  | some room =>
    match userId? with
    | none => (st, [])
    | some userId =>
      if !setHas room.members userId then
        (st, [])
      else
        let ms := setDelete room.members userId
        let emits := [Emit.evtToSender "room:left",
                      Emit.evtToRoomExceptSender roomId "room:update",
                      Emit.roomListBroadcast]
        if ms.isEmpty then
          ({ st with rooms := mapDelete st.rooms roomId }, emits)
        else
          let room2 := if room.leadUserId = userId
                       then { room with members := ms, leadUserId := ms.headD "" }
                       else { room with members := ms }
          ({ st with rooms := mapSet st.rooms roomId room2 }, emits)

/-- The member fan-out loop shared verbatim by `room:message` and the three
`room:file:*` handlers (e.g. lines 363-368): for each member id, resolve the
user; if present and not the sender's socket, emit `event` to their socket;
stale ids are silently skipped. -/
def roomFanout (users : List (String × User)) (room : Room) (sock : String)
    (event : String) : List Emit :=
  room.members.filterMap (fun memberId =>
    match mapGet users memberId with
    | some m => if m.socketId ≠ sock then some (Emit.evtToSocket m.socketId event)
                else none
    | none => none)

/-- The `room:message` handler (`src/server.js` lines 340-373): membership
check, message rate limit, `lastSeen` update, then fan-out to all members
except the sender. -/
def roomMessage (st : ServerState) (sock roomId : String) (now : Nat) :
    ServerState × List Emit :=
  let userId? := mapGet st.socketToUser sock
  let notMember :=
    match mapGet st.rooms roomId, userId? with
    | none, _ => true
    | some _, none => true
    | some room, some userId => !setHas room.members userId
  if notMember then
    (st, [.errToSender "Not authorized to send messages in this room"])
  else
    match mapGet st.rooms roomId, userId? with
    | some room, some userId =>
      let rl := checkRateLimit st.msgCounts userId MESSAGE_RATE_LIMIT now
      let st2 := { st with msgCounts := rl.2 }
      if !rl.1 then
        (st2, [.errToSender "Message rate limit exceeded. Please slow down."])
      else
        let users2 := updateLastSeen st2.users userId now
        ({ st2 with users := users2 },
         roomFanout users2 room sock "room:message")
    | _, _ => (st, [])

/-- The `room:typing` handler (`src/server.js` lines 376-385): silently
returns when the room is absent or the sender is not a member, else relays
the typing indicator to the room excluding the sender. -/
def roomTyping (st : ServerState) (sock roomId : String) :
    ServerState × List Emit :=
  let userId? := mapGet st.socketToUser sock
  match mapGet st.rooms roomId, userId? with
  | some room, some userId =>
    if setHas room.members userId then
      (st, [.evtToRoomExceptSender roomId "room:typing"])
    else
      (st, [])
  | _, _ => (st, [])

/-- The `room:message-edit` handler (`src/server.js` lines 388-400). -/
def roomMessageEdit (st : ServerState) (sock roomId : String) :
    ServerState × List Emit :=
  let userId? := mapGet st.socketToUser sock
  match mapGet st.rooms roomId, userId? with
  | some room, some userId =>
    if setHas room.members userId then
      (st, [.evtToRoomExceptSender roomId "room:message-edit"])
    else
      (st, [.errToSender "Not authorized to edit in this room"])
  | _, _ => (st, [.errToSender "Not authorized to edit in this room"])

/-- The `room:message-delete` handler (`src/server.js` lines 403-415). -/
def roomMessageDelete (st : ServerState) (sock roomId : String) :
    ServerState × List Emit :=
  let userId? := mapGet st.socketToUser sock
  match mapGet st.rooms roomId, userId? with
  | some room, some userId =>
    if setHas room.members userId then
      (st, [.evtToRoomExceptSender roomId "room:message-delete"])
    else
      (st, [.errToSender "Not authorized to delete in this room"])
  | _, _ => (st, [.errToSender "Not authorized to delete in this room"])

/-- The `room:reaction` handler (`src/server.js` lines 418-430): relays to the
whole room including the sender (`io.to(roomId)`). -/
def roomReaction (st : ServerState) (sock roomId : String) :
    ServerState × List Emit :=
  let userId? := mapGet st.socketToUser sock
  match mapGet st.rooms roomId, userId? with
  | some room, some userId =>
    if setHas room.members userId then
      (st, [.evtToRoom roomId "room:reaction"])
    else
      (st, [.errToSender "Not authorized to react in this room"])
  | _, _ => (st, [.errToSender "Not authorized to react in this room"])

/-- Payload of `room:file:start` (line 433). Sizes are JS numbers, modelled
as `Int`. -/
structure FileStartPayload where
  roomId : String
  fileId : String
  fileName : String
  fileSize : Int
  totalChunks : Int
deriving Repr, DecidableEq

/-- The `room:file:start` handler (`src/server.js` lines 433-483): membership
check, file rate limit, size ceiling (50 MiB), chunk-count ceiling (1000),
then fan-out to all members except the sender. -/
def roomFileStart (st : ServerState) (sock : String) (p : FileStartPayload)
    (now : Nat) : ServerState × List Emit :=
  let userId? := mapGet st.socketToUser sock
  match mapGet st.rooms p.roomId, userId? with
  | some room, some userId =>
    if !setHas room.members userId then
      (st, [.errToSender "Not authorized to send files in this room"])
    else
      let rl := checkRateLimit st.fileCounts userId FILE_RATE_LIMIT now
      let st2 := { st with fileCounts := rl.2 }
      if !rl.1 then
        (st2, [.errToSender
          "File transfer rate limit exceeded. Please wait before sending another file."])
      else if MAX_FILE_SIZE < p.fileSize then
        (st2, [.errToSender "File size too large. Maximum 50MB allowed."])
      else if (1000 : Int) < p.totalChunks then
        (st2, [.errToSender "Too many chunks. Please try a smaller file."])
      else
        (st2, roomFanout st.users room sock "room:file:start")
  | _, _ => (st, [.errToSender "Not authorized to send files in this room"])

/-- The `room:file:chunk` handler (`src/server.js` lines 485-510): membership
check only, then fan-out; the chunk index and payload are forwarded without
any size or count check. -/
def roomFileChunk (st : ServerState) (sock roomId : String)
    (chunkIndex : Int) : ServerState × List Emit :=
  let userId? := mapGet st.socketToUser sock
  match mapGet st.rooms roomId, userId? with
  | some room, some userId =>
    if !setHas room.members userId then
      (st, [.errToSender "Not authorized to send files in this room"])
    else
      (st, roomFanout st.users room sock "room:file:chunk")
  | _, _ => (st, [.errToSender "Not authorized to send files in this room"])

/-- The `room:file:end` handler (`src/server.js` lines 512-535). -/
def roomFileEnd (st : ServerState) (sock roomId : String) :
    ServerState × List Emit :=
  let userId? := mapGet st.socketToUser sock
  match mapGet st.rooms roomId, userId? with
  | some room, some userId =>
    if !setHas room.members userId then
      (st, [.errToSender "Not authorized to send files in this room"])
    else
      (st, roomFanout st.users room sock "room:file:end")
  | _, _ => (st, [.errToSender "Not authorized to send files in this room"])

/-- Membership test used by the `webrtc:offer` room check, where the sender's
id may be `undefined` (`room.members.has(undefined)` is false). -/
def senderIsMember (st : ServerState) (sock : String) (room : Room) : Bool :=
  match mapGet st.socketToUser sock with
  | some userId => setHas room.members userId
  | none => false

/-- The `webrtc:offer` handler (`src/server.js` lines 538-566): requires the
target to exist; when a `roomId` is supplied, additionally requires the room
to exist and both sender and target to be members; then forwards to the
target's socket. -/
def webrtcOffer (st : ServerState) (sock targetUserId : String)
    (roomId : Option String) : ServerState × List Emit :=
  match mapGet st.users targetUserId with
  | none => (st, [.errToSender "Target user not found"])
  | some targetUser =>
    match roomId with
    | some rid =>
      let ok := match mapGet st.rooms rid with
        | none => false
        | some room => senderIsMember st sock room && setHas room.members targetUserId
      if !ok then
        (st, [.errToSender "Both users must be in the same room for direct connection"])
      else
        (st, [.evtToSocket targetUser.socketId "webrtc:offer"])
    | none =>
      (st, [.evtToSocket targetUser.socketId "webrtc:offer"])

/-- The `webrtc:answer` handler (`src/server.js` lines 568-587): requires only
that the target exists, then forwards; the source performs no room-membership
check on this path even when `roomId` is supplied. -/
def webrtcAnswer (st : ServerState) (sock targetUserId : String)
    (roomId : Option String) : ServerState × List Emit :=
  match mapGet st.users targetUserId with
  | none => (st, [.errToSender "Target user not found"])
  | some targetUser =>
    (st, [.evtToSocket targetUser.socketId "webrtc:answer"])

/-- The `webrtc:ice-candidate` handler (`src/server.js` lines 589-608): same
shape as `webrtc:answer`, with no room-membership check. -/
def webrtcIceCandidate (st : ServerState) (sock targetUserId : String)
    (roomId : Option String) : ServerState × List Emit :=
  match mapGet st.users targetUserId with
  | none => (st, [.errToSender "Target user not found"])
  | some targetUser =>
    (st, [.evtToSocket targetUser.socketId "webrtc:ice-candidate"])

/-- The per-room removal step of the `disconnect` handler (lines 616-628):
returns `none` when the emptied room must be deleted, otherwise the room
with the member removed and leadership reassigned if needed. -/
def removeUserFromRoom (room : Room) (userId : String) : Option Room :=
  if (setDelete room.members userId).isEmpty then none
  else if room.leadUserId = userId then
    some { room with members := setDelete room.members userId,
                     leadUserId := (setDelete room.members userId).headD "" }
  else
    some { room with members := setDelete room.members userId }

/-- The room-directory sweep of the `disconnect` handler (lines 615-629):
every room containing the user undergoes `removeUserFromRoom`; emptied
rooms are dropped from the directory. -/
def removeFromAllRooms (rooms : List (String × Room)) (userId : String) :
    List (String × Room) :=
  rooms.filterMap (fun q =>
    if setHas q.2.members userId then
      (removeUserFromRoom q.2 userId).map (fun r => (q.1, r))
    else
      some q)

/-- The `disconnect` handler (`src/server.js` lines 611-638): removes the
user from every room (with the same leave semantics), then unregisters the
user and the socket mapping and broadcasts the updated lists. -/
def disconnect (st : ServerState) (sock : String) : ServerState × List Emit :=
  match mapGet st.socketToUser sock with
  | none => (st, [])
  | some userId =>
    ({ st with rooms := removeFromAllRooms st.rooms userId,
               users := mapDelete st.users userId,
               socketToUser := mapDelete st.socketToUser sock },
     [.userListBroadcast, .roomListBroadcast])

/-- Running a sequence of `checkRateLimit` calls for one user and one event
class at the given times, returning the list of boolean results and the final
count map. -/
def runRate : List (String × RateEntry) → String → Nat → List Nat →
    List Bool × List (String × RateEntry)
  | counts, _, _, [] => ([], counts)
  | counts, u, limit, t :: ts =>
    let r := checkRateLimit counts u limit t
    let rest := runRate r.2 u limit ts
    (r.1 :: rest.1, rest.2)

/-- Running a sequence of `checkRateLimit` calls for arbitrary users of one
event class, keeping only the final count map. -/
def runRateCalls (counts : List (String × RateEntry)) (limit : Nat)
    (calls : List (String × Nat)) : List (String × RateEntry) :=
  calls.foldl (fun c p => (checkRateLimit c p.1 limit p.2).2) counts

/-- Invariant of a rate-count map: every stored counter is at most the
class limit. -/
def rateInv (counts : List (String × RateEntry)) (limit : Nat) : Prop :=
  ∀ u e, mapGet counts u = some e → e.count ≤ limit

/-- The room-directory invariant of the specification: every room present
has a non-empty member set that contains its lead. -/
def roomsOk (rooms : List (String × Room)) : Prop :=
  ∀ q ∈ rooms, q.2.members ≠ [] ∧ setHas q.2.members q.2.leadUserId = true

/-- Concrete registry for the C10 stale-member scenario: only user `a`
resolves. -/
def usersC10 : List (String × User) :=
  [("a", { id := "a", name := "Alice", avatarUrl := none, socketId := "sa",
           joinedAt := 0, lastSeen := 0 })]

/-- Concrete room for the C10 stale-member scenario: member `b` does not
resolve in `usersC10`. -/
def roomC10 : Room :=
  { id := "r", name := "room", isPrivate := false, pinHash := none,
    leadUserId := "a", members := ["a", "b"], maxMembers := 50, createdAt := 0 }

/-- Concrete state for the C3 counterexample: one registered user on
socket `s1`. -/
def stC3 : ServerState :=
  { users := [("u1", { id := "u1", name := "Alice", avatarUrl := none,
                       socketId := "s1", joinedAt := 0, lastSeen := 0 })]
    rooms := []
    socketToUser := [("s1", "u1")]
    msgCounts := []
    fileCounts := [] }

/-- Concrete room for the C6 witness. -/
def roomC6 : Room :=
  { id := "r", name := "room", isPrivate := false, pinHash := none,
    leadUserId := "a", members := ["a", "b"], maxMembers := 50, createdAt := 0 }

/-- Concrete state for the C6 witness: users `a` and `b`, both members of
room `r`, empty rate windows. -/
def stC6 : ServerState :=
  { users := [("a", { id := "a", name := "Alice", avatarUrl := none,
                      socketId := "sa", joinedAt := 0, lastSeen := 0 }),
              ("b", { id := "b", name := "Bob", avatarUrl := none,
                      socketId := "sb", joinedAt := 0, lastSeen := 0 })]
    rooms := [("r", roomC6)]
    socketToUser := [("sa", "a"), ("sb", "b")]
    msgCounts := []
    fileCounts := [] }

/-- Concrete room for the C4 scenario: only `b` is a member. -/
def roomC4 : Room :=
  { id := "r", name := "room", isPrivate := false, pinHash := none,
    leadUserId := "b", members := ["b"], maxMembers := 50, createdAt := 0 }

/-- Concrete target user for the C4 scenario. -/
def userB4 : User :=
  { id := "b", name := "Bob", avatarUrl := none, socketId := "sb",
    joinedAt := 0, lastSeen := 0 }

/-- Concrete state for the C4 scenario: `a` is registered but NOT a member
of room `r`; `b` is the sole member. -/
def stC4 : ServerState :=
  { users := [("a", { id := "a", name := "Alice", avatarUrl := none,
                      socketId := "sa", joinedAt := 0, lastSeen := 0 }),
              ("b", userB4)]
    rooms := [("r", roomC4)]
    socketToUser := [("sa", "a"), ("sb", "b")]
    msgCounts := []
    fileCounts := [] }

/-- Concrete state for the C8 scenario: room `r` exists with member `b`;
socket `sx` has no registered identity. -/
def stC8 : ServerState :=
  { users := [("b", { id := "b", name := "Bob", avatarUrl := none,
                      socketId := "sb", joinedAt := 0, lastSeen := 0 })]
    rooms := [("r", { id := "r", name := "room", isPrivate := false,
                      pinHash := none, leadUserId := "b", members := ["b"],
                      maxMembers := 50, createdAt := 0 })]
    socketToUser := [("sb", "b")]
    msgCounts := []
    fileCounts := [] }

/-- Concrete state for the C1 scenario: room `r` whose single member `u1`
is also its lead, on socket `s1`. -/
def stC1 : ServerState :=
  { users := [("u1", { id := "u1", name := "Alice", avatarUrl := none,
                       socketId := "s1", joinedAt := 0, lastSeen := 0 })]
    rooms := [("r", { id := "r", name := "room", isPrivate := false,
                      pinHash := none, leadUserId := "u1", members := ["u1"],
                      maxMembers := 50, createdAt := 0 })]
    socketToUser := [("s1", "u1")]
    msgCounts := []
    fileCounts := [] }

/-- Concrete state for the second C1 scenario: room `r2` with two members,
`u1` (the lead, socket `s1`) and `u2`. -/
def stC1b : ServerState :=
  { users := [("u1", { id := "u1", name := "Alice", avatarUrl := none,
                       socketId := "s1", joinedAt := 0, lastSeen := 0 }),
              ("u2", { id := "u2", name := "Bob", avatarUrl := none,
                       socketId := "s2", joinedAt := 0, lastSeen := 0 })]
    rooms := [("r2", { id := "r2", name := "room", isPrivate := false,
                       pinHash := none, leadUserId := "u1",
                       members := ["u1", "u2"], maxMembers := 50,
                       createdAt := 0 })]
    socketToUser := [("s1", "u1"), ("s2", "u2")]
    msgCounts := []
    fileCounts := [] }

/-- Concrete state for the C2 scenario: private room `r` with PIN `4821`,
`maxMembers = 2`, already holding its two members `u1` and `u2`; a third
registered user `u3` on socket `s3`. -/
def stC2 : ServerState :=
  { users := [("u1", { id := "u1", name := "A", avatarUrl := none,
                       socketId := "s1", joinedAt := 0, lastSeen := 0 }),
              ("u2", { id := "u2", name := "B", avatarUrl := none,
                       socketId := "s2", joinedAt := 0, lastSeen := 0 }),
              ("u3", { id := "u3", name := "C", avatarUrl := none,
                       socketId := "s3", joinedAt := 0, lastSeen := 0 })]
    rooms := [("r", { id := "r", name := "room", isPrivate := true,
                      pinHash := some (bcryptHash "4821"), leadUserId := "u1",
                      members := ["u1", "u2"], maxMembers := 2,
                      createdAt := 0 })]
    socketToUser := [("s1", "u1"), ("s2", "u2"), ("s3", "u3")]
    msgCounts := []
    fileCounts := [] }

theorem mapGet_mapSet_self {α : Type} (m : List (String × α)) (k : String)
    (v : α) : mapGet (mapSet m k v) k = some v := by
  induction m with
  | nil => simp [mapSet, mapGet]
  | cons hd tl ih =>
    obtain ⟨a, b⟩ := hd
    by_cases h : a = k
    · simp [mapSet, mapGet, h]
    · simp [mapSet, mapGet, h, ih]

theorem mapGet_mapSet_ne {α : Type} (m : List (String × α)) (k k2 : String)
    (v : α) (h : k2 ≠ k) : mapGet (mapSet m k v) k2 = mapGet m k2 := by
  induction m with
  | nil =>
    have hk : ¬ k = k2 := fun hh => h hh.symm
    simp [mapSet, mapGet, hk]
  | cons hd tl ih =>
    obtain ⟨a, b⟩ := hd
    by_cases ha : a = k
    · subst ha
      have hk : ¬ a = k2 := fun hh => h hh.symm
      simp [mapSet, mapGet, hk]
    · simp [mapSet, mapGet, ha, ih]

theorem mapSet_mapSet {α : Type} (m : List (String × α)) (k : String)
    (v w : α) : mapSet (mapSet m k v) k w = mapSet m k w := by
  induction m with
  | nil => simp [mapSet]
  | cons hd tl ih =>
    obtain ⟨a, b⟩ := hd
    by_cases h : a = k
    · simp [mapSet, h]
    · simp [mapSet, h, ih]

theorem mapSet_self {α : Type} (m : List (String × α)) (k : String) (v : α)
    (h : mapGet m k = some v) : mapSet m k v = m := by
  induction m with
  | nil => simp [mapGet] at h
  | cons hd tl ih =>
    obtain ⟨a, b⟩ := hd
    by_cases ha : a = k
    · subst ha
      simp [mapGet] at h
      simp [mapSet, h]
    · simp [mapGet, ha] at h
      simp [mapSet, ha, ih h]

theorem length_filterMap_resolve {α : Type} (users : List (String × User))
    (f : User → α) (ms : List String) :
    (ms.filterMap (fun uid => (mapGet users uid).map f)).length
      = (ms.filter (fun uid => (mapGet users uid).isSome)).length := by
  induction ms with
  | nil => rfl
  | cons hd tl ih =>
    cases h : mapGet users hd <;>
      simp [List.filterMap_cons, List.filter_cons, h, ih]

theorem setHas_append_left (s t : List String) (y : String)
    (h : setHas s y = true) : setHas (s ++ t) y = true := by
  induction s with
  | nil => simp [setHas] at h
  | cons a tl ih =>
    by_cases ha : a = y
    · simp [setHas, ha]
    · simp [setHas, ha] at h ⊢
      exact ih h

theorem setHas_setAdd (s : List String) (x y : String)
    (h : setHas s y = true) : setHas (setAdd s x) y = true := by
  unfold setAdd
  split
  · exact h
  · exact setHas_append_left s [x] y h

theorem setAdd_ne_nil (s : List String) (x : String) : setAdd s x ≠ [] := by
  unfold setAdd
  split
  · intro hnil
    rename_i hc
    rw [hnil] at hc
    simp [setHas] at hc
  · simp

theorem setHas_setDelete_ne (s : List String) (u y : String) (h : y ≠ u) :
    setHas (setDelete s u) y = setHas s y := by
  induction s with
  | nil => rfl
  | cons a tl ih =>
    by_cases ha : a = u
    · subst ha
      have hay : ¬ a = y := fun hh => h hh.symm
      simp [setDelete, setHas, hay, ih]
    · simp [setDelete, setHas, ha, ih]

theorem setHas_headD (s : List String) (d : String) (h : s ≠ []) :
    setHas s (s.headD d) = true := by
  cases s with
  | nil => exact absurd rfl h
  | cons a tl => simp [setHas]

theorem mapGet_mem {α : Type} (m : List (String × α)) (k : String) (v : α)
    (h : mapGet m k = some v) : (k, v) ∈ m := by
  induction m with
  | nil => simp [mapGet] at h
  | cons hd tl ih =>
    obtain ⟨a, b⟩ := hd
    by_cases ha : a = k
    · subst ha
      simp [mapGet] at h
      subst h
      exact List.mem_cons_self _ _
    · simp [mapGet, ha] at h
      exact List.mem_cons_of_mem _ (ih h)

theorem mem_mapSet {α : Type} (m : List (String × α)) (k : String) (v : α)
    (q : String × α) (h : q ∈ mapSet m k v) : q.2 = v ∨ q ∈ m := by
  induction m with
  | nil =>
    simp [mapSet] at h
    subst h
    exact Or.inl rfl
  | cons hd tl ih =>
    obtain ⟨a, b⟩ := hd
    by_cases ha : a = k
    · simp [mapSet, ha] at h
      rcases h with h | h
      · subst h; exact Or.inl rfl
      · exact Or.inr (List.mem_cons_of_mem _ h)
    · simp only [mapSet, if_neg ha, List.mem_cons] at h
      rcases h with h | h
      · exact Or.inr (by simp [h])
      · rcases ih h with h2 | h2
        · exact Or.inl h2
        · exact Or.inr (List.mem_cons_of_mem _ h2)

theorem mem_mapDelete {α : Type} (m : List (String × α)) (k : String)
    (q : String × α) (h : q ∈ mapDelete m k) : q ∈ m := by
  induction m with
  | nil => simp [mapDelete] at h
  | cons hd tl ih =>
    obtain ⟨a, b⟩ := hd
    by_cases ha : a = k
    · simp [mapDelete, ha] at h
      exact List.mem_cons_of_mem _ (ih h)
    · simp only [mapDelete, if_neg ha, List.mem_cons] at h
      rcases h with h | h
      · simp [h]
      · exact List.mem_cons_of_mem _ (ih h)

/-- C7: the serialized room snapshot contains only the public fields and is
independent of the PIN digest: two rooms differing only in `pinHash`
serialize identically (so the digest never reaches a client), for every
user registry and every pair of digests. -/
theorem serializeRoom_ignores_pinHash (users : List (String × User))
    (r : Room) (d1 d2 : Option String) :
    serializeRoom users { r with pinHash := d1 }
      = serializeRoom users { r with pinHash := d2 } := rfl

/-- C10: `serializeRoom` reports `memberCount` as the size of the member set,
while its `members` array keeps exactly the member ids that resolve in the
user registry; in the concrete state `usersC10`/`roomC10` (a stale id `b`),
`memberCount = 2` strictly exceeds the one-element `members` array, and
serialization still succeeds, producing the resolving member. -/
theorem serializeRoom_memberCount_vs_members :
    (∀ users room, (serializeRoom users room).memberCount = room.members.length)
    ∧ (∀ users room, (serializeRoom users room).members.length
        = (room.members.filter (fun uid => (mapGet users uid).isSome)).length)
    ∧ (serializeRoom usersC10 roomC10).memberCount = 2
    ∧ (serializeRoom usersC10 roomC10).members
        = [{ id := "a", name := "Alice", avatarUrl := none, lastSeen := 0 }] := by
  refine ⟨fun users room => rfl, fun users room => ?_, rfl, rfl⟩
  simpa [serializeRoom] using
    length_filterMap_resolve users
      (fun u => ({ id := u.id, name := u.name, avatarUrl := u.avatarUrl,
                   lastSeen := u.lastSeen } : SerializedMember)) room.members

/-- C3 counterexample: a `room:create` request with `maxMembers = 1` creates
a room whose stored `maxMembers` is `1`, which is not in `[2, 50]` — the
source only caps from above (`Math.min(maxMembers || 50, 50)`), it never
raises small values to `2`. -/
theorem roomCreate_maxMembers_one_not_clamped :
    ((mapGet (roomCreate stC3 "s1"
        { name := "room", isPrivate := false, pin := none, maxMembers := 1 }
        "r1" 0).1.rooms "r1").map Room.maxMembers = some 1)
    ∧ ¬ (2 ≤ (1 : Int)) := ⟨rfl, by decide⟩

/-- C3 amended: the `maxMembers` stored at creation is
`Math.min(maxMembers || 50, 50)`: it never exceeds `MAX_ROOM_MEMBERS = 50`,
a falsy request yields `50`, and a non-falsy request yields
`min(requested, 50)` — with no lower clamp to `2`. -/
theorem clampMaxMembers_upper_only (m : Int) :
    clampMaxMembers m ≤ MAX_ROOM_MEMBERS
    ∧ (m = 0 → clampMaxMembers m = MAX_ROOM_MEMBERS)
    ∧ (m ≠ 0 → clampMaxMembers m = min m MAX_ROOM_MEMBERS) := by
  refine ⟨?_, fun h => by simp [clampMaxMembers, h], fun h => by simp [clampMaxMembers, h]⟩
  by_cases h : m = 0 <;> simp [clampMaxMembers, h]

/-- Instantiation of `clampMaxMembers_upper_only` at requests 7 and 0. -/
theorem clampMaxMembers_upper_only_inst :
    clampMaxMembers 7 ≤ MAX_ROOM_MEMBERS
    ∧ clampMaxMembers 7 = min 7 MAX_ROOM_MEMBERS
    ∧ clampMaxMembers 0 = MAX_ROOM_MEMBERS :=
  ⟨(clampMaxMembers_upper_only 7).1,
   (clampMaxMembers_upper_only 7).2.2 (by decide),
   (clampMaxMembers_upper_only 0).2.1 rfl⟩

theorem checkRateLimit_denied_unchanged (counts : List (String × RateEntry))
    (u : String) (limit : Nat) (now : Nat)
    (hden : (checkRateLimit counts u limit now).1 = false) :
    (checkRateLimit counts u limit now).2 = counts := by
  cases h : mapGet counts u with
  | none => simp [checkRateLimit, h] at hden
  | some e =>
    by_cases h1 : e.resetTime < now
    · simp [checkRateLimit, h, h1] at hden
    · by_cases h2 : limit ≤ e.count
      · simp [checkRateLimit, h, h1, h2]
      · simp [checkRateLimit, h, h1, h2] at hden

theorem checkRateLimit_preserves_inv (counts : List (String × RateEntry))
    (u : String) (limit : Nat) (now : Nat) (hl : 1 ≤ limit)
    (hinv : rateInv counts limit) :
    rateInv (checkRateLimit counts u limit now).2 limit := by
  have key : ∀ x : RateEntry, x.count ≤ limit → rateInv (mapSet counts u x) limit := by
    intro x hx u2 e2 h2
    by_cases hu : u2 = u
    · subst hu
      rw [mapGet_mapSet_self] at h2
      cases h2
      exact hx
    · rw [mapGet_mapSet_ne _ _ _ _ hu] at h2
      exact hinv u2 e2 h2
  cases h : mapGet counts u with
  | none => simpa [checkRateLimit, h] using key ⟨1, now + 60000⟩ hl
  | some e =>
    by_cases h1 : e.resetTime < now
    · simpa [checkRateLimit, h, h1] using key ⟨1, now + 60000⟩ hl
    · by_cases h2 : limit ≤ e.count
      · simpa [checkRateLimit, h, h1, h2] using hinv
      · have hle : e.count + 1 ≤ limit := Nat.succ_le_of_lt (Nat.lt_of_not_le h2)
        simpa [checkRateLimit, h, h1, h2] using key ⟨e.count + 1, e.resetTime⟩ hle

theorem runRateCalls_preserves_inv (limit : Nat) (hl : 1 ≤ limit) :
    ∀ (calls : List (String × Nat)) (counts : List (String × RateEntry)),
      rateInv counts limit → rateInv (runRateCalls counts limit calls) limit := by
  intro calls
  induction calls with
  | nil => intro counts h; exact h
  | cons c tl ih =>
    intro counts h
    exact ih _ (checkRateLimit_preserves_inv counts c.1 limit c.2 hl h)

/-- C9: the stored rate counter for any identity never exceeds the class
limit after any sequence of `checkRateLimit` calls at any times (whenever
the limit is at least 1, which covers both 10 for message and 5 for file),
and a denied call returns the count map completely unchanged (so the counter
is incremented only on allowed calls). -/
theorem rateLimit_counter_bounded (counts : List (String × RateEntry))
    (limit : Nat) (calls : List (String × Nat)) (hl : 1 ≤ limit)
    (hinv : rateInv counts limit) :
    rateInv (runRateCalls counts limit calls) limit
    ∧ ∀ u now, (checkRateLimit counts u limit now).1 = false →
        (checkRateLimit counts u limit now).2 = counts :=
  ⟨runRateCalls_preserves_inv limit hl calls counts hinv,
   fun u now h => checkRateLimit_denied_unchanged counts u limit now h⟩

/-- Instantiation of `rateLimit_counter_bounded`: a denied message-class call
at a saturated counter leaves the count map untouched. -/
theorem rateLimit_counter_bounded_inst :
    (checkRateLimit [("u", ⟨10, 60000⟩)] "u" MESSAGE_RATE_LIMIT 5).2
      = [("u", ⟨10, 60000⟩)] := by
  have hinv : rateInv [("u", (⟨10, 60000⟩ : RateEntry))] MESSAGE_RATE_LIMIT := by
    intro u e h
    by_cases hu : "u" = u
    · simp [mapGet, hu] at h
      rw [← h]
      decide
    · simp [mapGet, hu] at h
  exact (rateLimit_counter_bounded [("u", ⟨10, 60000⟩)] MESSAGE_RATE_LIMIT []
    (by decide) hinv).2 "u" 5 (by decide)

theorem runRate_within_window (u : String) (limit : Nat) :
    ∀ (ts : List Nat) (counts : List (String × RateEntry)) (k rt : Nat),
      mapGet counts u = some ⟨k, rt⟩ →
      k + ts.length ≤ limit →
      (∀ t ∈ ts, t ≤ rt) →
      runRate counts u limit ts
        = (List.replicate ts.length true, mapSet counts u ⟨k + ts.length, rt⟩) := by
  intro ts
  induction ts with
  | nil =>
    intro counts k rt hget hk hts
    simp [runRate, mapSet_self counts u ⟨k, rt⟩ hget]
  | cons t tl ih =>
    intro counts k rt hget hk hts
    have ht : t ≤ rt := hts t (List.mem_cons_self t tl)
    have hnot : ¬ rt < t := Nat.not_lt.mpr ht
    have hkl : ¬ limit ≤ k := by
      simp only [List.length_cons] at hk
      omega
    have hstep : checkRateLimit counts u limit t
        = (true, mapSet counts u ⟨k + 1, rt⟩) := by
      simp [checkRateLimit, hget, hnot, hkl]
    have hget2 : mapGet (mapSet counts u ⟨k + 1, rt⟩) u = some ⟨k + 1, rt⟩ :=
      mapGet_mapSet_self _ _ _
    have hk2 : (k + 1) + tl.length ≤ limit := by
      simp only [List.length_cons] at hk
      omega
    have hts2 : ∀ x ∈ tl, x ≤ rt := fun x hx => hts x (List.mem_cons_of_mem t hx)
    have hrec := ih (mapSet counts u ⟨k + 1, rt⟩) (k + 1) rt hget2 hk2 hts2
    have harith : k + (t :: tl).length = (k + 1) + tl.length := by
      simp only [List.length_cons]
      omega
    rw [harith]
    simp [runRate, hstep, hrec, mapSet_mapSet, List.replicate_succ]

/-- C5: with the message-class limit of 10 per 60-second window, starting
from no stored window for the identity: the first 10 checks (the first at
`t0`, the rest at any times within `t0 + 60000`) are all allowed and leave
the counter at 10 with the window ending at `t0 + 60000`; an 11th check at
any time `t11 ≤ t0 + 60000` returns `allowed = false` and leaves the map
unchanged; and any check on any stored entry strictly past its
`resetTime` returns `allowed = true`, resetting the counter to 1 with the
new window starting at that check's time. -/
theorem messageRateLimit_window_behaviour (counts : List (String × RateEntry))
    (u : String) (t0 t11 : Nat) (ts : List Nat)
    (h0 : mapGet counts u = none)
    (hlen : ts.length = 9)
    (hts : ∀ t ∈ ts, t ≤ t0 + 60000)
    (h11 : t11 ≤ t0 + 60000) :
    (runRate counts u MESSAGE_RATE_LIMIT (t0 :: ts)).1 = List.replicate 10 true
    ∧ mapGet (runRate counts u MESSAGE_RATE_LIMIT (t0 :: ts)).2 u
        = some ⟨10, t0 + 60000⟩
    ∧ checkRateLimit (runRate counts u MESSAGE_RATE_LIMIT (t0 :: ts)).2 u
        MESSAGE_RATE_LIMIT t11
        = (false, (runRate counts u MESSAGE_RATE_LIMIT (t0 :: ts)).2)
    ∧ (∀ (counts2 : List (String × RateEntry)) (e : RateEntry) (now2 : Nat),
        mapGet counts2 u = some e → e.resetTime < now2 →
        checkRateLimit counts2 u MESSAGE_RATE_LIMIT now2
          = (true, mapSet counts2 u ⟨1, now2 + 60000⟩)) := by
  have hstep0 : checkRateLimit counts u MESSAGE_RATE_LIMIT t0
      = (true, mapSet counts u ⟨1, t0 + 60000⟩) := by
    simp [checkRateLimit, h0]
  have hget1 : mapGet (mapSet counts u ⟨1, t0 + 60000⟩) u = some ⟨1, t0 + 60000⟩ :=
    mapGet_mapSet_self _ _ _
  have hrun := runRate_within_window u MESSAGE_RATE_LIMIT ts
      (mapSet counts u ⟨1, t0 + 60000⟩) 1 (t0 + 60000) hget1
      (by simp [MESSAGE_RATE_LIMIT, hlen]) hts
  have hrun2 : runRate counts u MESSAGE_RATE_LIMIT (t0 :: ts)
      = (true :: List.replicate ts.length true,
         mapSet counts u ⟨1 + ts.length, t0 + 60000⟩) := by
    simp [runRate, hstep0, hrun, mapSet_mapSet]
  have hten : (1 + ts.length) = 10 := by omega
  have hget10 : mapGet (mapSet counts u ⟨10, t0 + 60000⟩) u = some ⟨10, t0 + 60000⟩ :=
    mapGet_mapSet_self _ _ _
  refine ⟨?_, ?_, ?_, ?_⟩
  · rw [hrun2, hlen]
    show true :: List.replicate 9 true = List.replicate 10 true
    decide
  · rw [hrun2, hten]
    exact hget10
  · rw [hrun2, hten]
    simp [checkRateLimit, hget10, Nat.not_lt.mpr h11, MESSAGE_RATE_LIMIT]
  · intro counts2 e now2 hget hlt
    simp [checkRateLimit, hget, hlt]

/-- Instantiation of `messageRateLimit_window_behaviour` at concrete times
0..9 with the 11th check at the window edge 60000, plus a reset at 60001. -/
theorem messageRateLimit_window_behaviour_inst :
    (runRate [] "u" MESSAGE_RATE_LIMIT
        (0 :: [1, 2, 3, 4, 5, 6, 7, 8, 9])).1 = List.replicate 10 true
    ∧ checkRateLimit (runRate [] "u" MESSAGE_RATE_LIMIT
        (0 :: [1, 2, 3, 4, 5, 6, 7, 8, 9])).2 "u" MESSAGE_RATE_LIMIT 60000
        = (false, (runRate [] "u" MESSAGE_RATE_LIMIT
            (0 :: [1, 2, 3, 4, 5, 6, 7, 8, 9])).2)
    ∧ checkRateLimit [("u", ⟨10, 60000⟩)] "u" MESSAGE_RATE_LIMIT 60001
        = (true, mapSet [("u", ⟨10, 60000⟩)] "u" ⟨1, 60001 + 60000⟩) := by
  have h := messageRateLimit_window_behaviour [] "u" 0 60000
      [1, 2, 3, 4, 5, 6, 7, 8, 9] rfl rfl (by decide) (by decide)
  exact ⟨h.1, h.2.2.1, h.2.2.2 [("u", ⟨10, 60000⟩)] ⟨10, 60000⟩ 60001 rfl (by decide)⟩

theorem errToSender_not_mem_roomFanout (users : List (String × User))
    (room : Room) (sock event msg : String) :
    Emit.errToSender msg ∉ roomFanout users room sock event := by
  intro hmem
  unfold roomFanout at hmem
  rw [List.mem_filterMap] at hmem
  obtain ⟨mid, _, heq⟩ := hmem
  cases hu : mapGet users mid with
  | none => rw [hu] at heq; simp at heq
  | some m =>
    rw [hu] at heq
    by_cases hs : m.socketId = sock
    · simp [hs] at heq
    · simp [hs] at heq

/-- C6: for a file transfer initiated by a current room member whose file
rate-limit check passes, `room:file:start` rejects (a single error event,
nothing forwarded) whenever `fileSize > 50 MiB` or `totalChunks > 1000`,
forwards to the room (never emitting an error) when both bounds hold, and
`room:file:chunk` forwards for every chunk index whatsoever, applying
neither bound. -/
theorem fileStart_admission_checks (st : ServerState) (sock : String)
    (p : FileStartPayload) (now : Nat) (userId : String) (room : Room)
    (hsu : mapGet st.socketToUser sock = some userId)
    (hroom : mapGet st.rooms p.roomId = some room)
    (hmem : setHas room.members userId = true)
    (hrate : (checkRateLimit st.fileCounts userId FILE_RATE_LIMIT now).1 = true) :
    ((MAX_FILE_SIZE < p.fileSize ∨ (1000 : Int) < p.totalChunks) →
      ∃ msg, (roomFileStart st sock p now).2 = [Emit.errToSender msg])
    ∧ (p.fileSize ≤ MAX_FILE_SIZE → p.totalChunks ≤ 1000 →
      (roomFileStart st sock p now).2 = roomFanout st.users room sock "room:file:start"
      ∧ ∀ msg, Emit.errToSender msg ∉ (roomFileStart st sock p now).2)
    ∧ (∀ chunkIndex : Int, roomFileChunk st sock p.roomId chunkIndex
        = (st, roomFanout st.users room sock "room:file:chunk")) := by
  refine ⟨?_, ?_, ?_⟩
  · intro hbig
    by_cases hsz : MAX_FILE_SIZE < p.fileSize
    · exact ⟨"File size too large. Maximum 50MB allowed.",
        by simp [roomFileStart, hroom, hsu, hmem, hrate, hsz]⟩
    · have hch : (1000 : Int) < p.totalChunks := by
        rcases hbig with h | h
        · exact absurd h hsz
        · exact h
      exact ⟨"Too many chunks. Please try a smaller file.",
        by simp [roomFileStart, hroom, hsu, hmem, hrate, hsz, hch]⟩
  · intro hsz hch
    have h1 : ¬ MAX_FILE_SIZE < p.fileSize := not_lt.mpr hsz
    have h2 : ¬ (1000 : Int) < p.totalChunks := not_lt.mpr hch
    have hfwd : (roomFileStart st sock p now).2
        = roomFanout st.users room sock "room:file:start" := by
      simp [roomFileStart, hroom, hsu, hmem, hrate, h1, h2]
    refine ⟨hfwd, fun msg hmsg => ?_⟩
    rw [hfwd] at hmsg
    exact errToSender_not_mem_roomFanout _ _ _ _ _ hmsg
  · intro ci
    simp [roomFileChunk, hroom, hsu, hmem]

/-- Instantiation of `fileStart_admission_checks`: a 60-MB declaration is
rejected, and a chunk with an arbitrary large index is forwarded. -/
theorem fileStart_admission_checks_inst :
    (∃ msg, (roomFileStart stC6 "sa"
        { roomId := "r", fileId := "f", fileName := "n",
          fileSize := 60000000, totalChunks := 4 } 0).2
        = [Emit.errToSender msg])
    ∧ roomFileChunk stC6 "sa" "r" 2025
        = (stC6, roomFanout stC6.users roomC6 "sa" "room:file:chunk") := by
  have h := fileStart_admission_checks stC6 "sa"
      { roomId := "r", fileId := "f", fileName := "n",
        fileSize := 60000000, totalChunks := 4 } 0 "a" roomC6 rfl rfl rfl rfl
  exact ⟨h.1 (Or.inl (by decide)), h.2.2 2025⟩

/-- C4 amended: for webrtc signaling scoped to an existing room and an
existing target, `webrtc:offer` forwards exactly when both the sender and
the target are current members (failing with the membership error
otherwise), while `webrtc:answer` and `webrtc:ice-candidate` forward to the
target's socket unconditionally — the source performs no membership check
on those two paths. -/
theorem webrtc_membership_checks (st : ServerState) (sock tgt rid : String)
    (room : Room) (tu : User)
    (hroom : mapGet st.rooms rid = some room)
    (htu : mapGet st.users tgt = some tu) :
    ((senderIsMember st sock room && setHas room.members tgt) = false →
      webrtcOffer st sock tgt (some rid)
        = (st, [Emit.errToSender
            "Both users must be in the same room for direct connection"]))
    ∧ ((senderIsMember st sock room && setHas room.members tgt) = true →
      webrtcOffer st sock tgt (some rid)
        = (st, [Emit.evtToSocket tu.socketId "webrtc:offer"]))
    ∧ webrtcAnswer st sock tgt (some rid)
        = (st, [Emit.evtToSocket tu.socketId "webrtc:answer"])
    ∧ webrtcIceCandidate st sock tgt (some rid)
        = (st, [Emit.evtToSocket tu.socketId "webrtc:ice-candidate"]) :=
  ⟨fun h => by simp [webrtcOffer, htu, hroom, h],
   fun h => by simp [webrtcOffer, htu, hroom, h],
   by simp [webrtcAnswer, htu],
   by simp [webrtcIceCandidate, htu]⟩

/-- C4 counterexample: a room-scoped `webrtc:answer` from `a`, who is NOT a
member of room `r`, is nevertheless forwarded to the target's socket with no
Unauthorized error — refuting the claim that all three room-scoped signaling
kinds require both parties to be members. -/
theorem webrtcAnswer_skips_membership_check :
    webrtcAnswer stC4 "sa" "b" (some "r")
      = (stC4, [Emit.evtToSocket "sb" "webrtc:answer"])
    ∧ (mapGet stC4.rooms "r").map (fun r => setHas r.members "a") = some false
    ∧ mapGet stC4.socketToUser "sa" = some "a" := ⟨rfl, rfl, rfl⟩

/-- Instantiation of `webrtc_membership_checks` on `stC4`: the offer from
non-member `a` is rejected while the ice candidate is forwarded. -/
theorem webrtc_membership_checks_inst :
    webrtcOffer stC4 "sa" "b" (some "r")
      = (stC4, [Emit.errToSender
          "Both users must be in the same room for direct connection"])
    ∧ webrtcIceCandidate stC4 "sa" "b" (some "r")
      = (stC4, [Emit.evtToSocket "sb" "webrtc:ice-candidate"]) := by
  have h := webrtc_membership_checks stC4 "sa" "b" "r" roomC4 userB4 rfl rfl
  exact ⟨h.1 rfl, h.2.2.2⟩

/-- C8 amended: every room/message operation arriving on a connection with
no registered identity leaves the entire shared state unchanged; the
create/join/joinByPin/kick/list/message/edit/delete/reaction/file operations
all surface an error event to that connection, but `room:leave` and
`room:typing` are silently dropped with no error event at all. -/
theorem unidentified_ops_no_mutation (st : ServerState) (sock : String)
    (h : mapGet st.socketToUser sock = none) :
    (∀ p rid now, roomCreate st sock p rid now
        = (st, [Emit.errToSender "User not found"]))
    ∧ (∀ p now, roomJoin st sock p now
        = (st, [Emit.errToSender "User not found"]))
    ∧ (∀ pin, roomJoinByPin st sock pin
        = (st, [Emit.errToSender "User not found"]))
    ∧ (∀ rid tgt, roomKick st sock rid tgt
        = (st, [Emit.errToSender "Unauthorized"]))
    ∧ roomListRequest st sock = (st, [Emit.errToSender "User not found"])
    ∧ (∀ rid now, roomMessage st sock rid now
        = (st, [Emit.errToSender "Not authorized to send messages in this room"]))
    ∧ (∀ rid, roomMessageEdit st sock rid
        = (st, [Emit.errToSender "Not authorized to edit in this room"]))
    ∧ (∀ rid, roomMessageDelete st sock rid
        = (st, [Emit.errToSender "Not authorized to delete in this room"]))
    ∧ (∀ rid, roomReaction st sock rid
        = (st, [Emit.errToSender "Not authorized to react in this room"]))
    ∧ (∀ p now, roomFileStart st sock p now
        = (st, [Emit.errToSender "Not authorized to send files in this room"]))
    ∧ (∀ rid ci, roomFileChunk st sock rid ci
        = (st, [Emit.errToSender "Not authorized to send files in this room"]))
    ∧ (∀ rid, roomFileEnd st sock rid
        = (st, [Emit.errToSender "Not authorized to send files in this room"]))
    ∧ (∀ rid, roomLeave st sock rid = (st, []))
    ∧ (∀ rid, roomTyping st sock rid = (st, [])) := by
  refine ⟨?_, ?_, ?_, ?_, ?_, ?_, ?_, ?_, ?_, ?_, ?_, ?_, ?_, ?_⟩
  · intro p rid now; simp [roomCreate, h]
  · intro p now; simp [roomJoin, h]
  · intro pin; simp [roomJoinByPin, h]
  · intro rid tgt
    cases hr : mapGet st.rooms rid <;> simp [roomKick, h, hr]
  · simp [roomListRequest, h]
  · intro rid now
    cases hr : mapGet st.rooms rid <;> simp [roomMessage, h, hr]
  · intro rid
    cases hr : mapGet st.rooms rid <;> simp [roomMessageEdit, h, hr]
  · intro rid
    cases hr : mapGet st.rooms rid <;> simp [roomMessageDelete, h, hr]
  · intro rid
    cases hr : mapGet st.rooms rid <;> simp [roomReaction, h, hr]
  · intro p now
    cases hr : mapGet st.rooms p.roomId <;> simp [roomFileStart, h, hr]
  · intro rid ci
    cases hr : mapGet st.rooms rid <;> simp [roomFileChunk, h, hr]
  · intro rid
    cases hr : mapGet st.rooms rid <;> simp [roomFileEnd, h, hr]
  · intro rid
    cases hr : mapGet st.rooms rid <;> simp [roomLeave, h, hr]
  · intro rid
    cases hr : mapGet st.rooms rid <;> simp [roomTyping, h, hr]

/-- C8 counterexample: `room:typing` and `room:leave` requests from the
unidentified socket `sx` for the existing room `r` are silently dropped —
no error event is emitted — refuting the claim that such operations always
surface a NotFound/Unauthorized error and are never silently dropped. -/
theorem roomTyping_unidentified_silently_dropped :
    roomTyping stC8 "sx" "r" = (stC8, [])
    ∧ roomLeave stC8 "sx" "r" = (stC8, [])
    ∧ mapGet stC8.socketToUser "sx" = none
    ∧ (mapGet stC8.rooms "r").isSome = true := ⟨rfl, rfl, rfl, rfl⟩

/-- Instantiation of `unidentified_ops_no_mutation` on `stC8`. -/
theorem unidentified_ops_no_mutation_inst :
    roomCreate stC8 "sx"
        { name := "n", isPrivate := false, pin := none, maxMembers := 0 }
        "rid" 0
      = (stC8, [Emit.errToSender "User not found"])
    ∧ roomMessage stC8 "sx" "r" 0
      = (stC8, [Emit.errToSender "Not authorized to send messages in this room"]) := by
  obtain ⟨h1, _, _, _, _, h6, _⟩ := unidentified_ops_no_mutation stC8 "sx" rfl
  exact ⟨h1 _ _ _, h6 "r" 0⟩

/-- C1 failing runs: the lead kicks themself. In `stC1` (sole member) the
`room:kick` handler leaves the now-empty room in the directory; in `stC1b`
(two members) it leaves a non-empty room whose `leadUserId` is no longer a
member — the handler neither deletes emptied rooms nor reassigns
leadership, violating both halves of the invariant. -/
theorem kick_leaves_empty_room_in_directory :
    ((mapGet (roomKick stC1 "s1" "r" "u1").1.rooms "r").map Room.members
      = some []
    ∧ (mapGet (roomKick stC1 "s1" "r" "u1").1.rooms "r").map Room.leadUserId
      = some "u1")
    ∧ ((mapGet (roomKick stC1b "s1" "r2" "u1").1.rooms "r2").map Room.members
      = some ["u2"]
    ∧ (mapGet (roomKick stC1b "s1" "r2" "u1").1.rooms "r2").map Room.leadUserId
      = some "u1") := ⟨⟨rfl, rfl⟩, ⟨rfl, rfl⟩⟩

/-- C2 failing run: room `r` is exactly at capacity (2 members,
`maxMembers = 2`), yet `room:joinByPin` with the correct PIN adds `u3` as a
third member and reports success — the handler performs no Full check, so
the join neither fails nor leaves membership unchanged. -/
theorem joinByPin_overfills_room :
    (mapGet stC2.rooms "r").map Room.members = some ["u1", "u2"]
    ∧ (mapGet stC2.rooms "r").map Room.maxMembers = some 2
    ∧ (mapGet (roomJoinByPin stC2 "s3" (some "4821")).1.rooms "r").map Room.members
        = some ["u1", "u2", "u3"]
    ∧ (roomJoinByPin stC2 "s3" (some "4821")).2
        = [Emit.evtToSender "room:joined",
           Emit.evtToRoomExceptSender "r" "room:update",
           Emit.roomListBroadcast] := ⟨rfl, rfl, rfl, rfl⟩

/-- Supporting fact for the C2 analysis: the `room:join` path DOES enforce
the capacity bound — joining an exactly-full room by room id fails with the
Full error and leaves the state unchanged. -/
theorem roomJoin_full_rejects (st : ServerState) (sock : String)
    (p : JoinPayload) (now : Nat) (userId : String) (room : Room)
    (hsu : mapGet st.socketToUser sock = some userId)
    (hu : (mapGet st.users userId).isSome = true)
    (hroom : mapGet st.rooms p.roomId = some room)
    (hfull : room.maxMembers ≤ (room.members.length : Int)) :
    roomJoin st sock p now = (st, [Emit.errToSender "Room is full"]) := by
  have hu2 : ¬ (mapGet st.users userId).isNone := by
    simp [Option.isNone_iff_eq_none]
    intro hn
    rw [hn] at hu
    simp at hu
  simp [roomJoin, hsu, hroom, hfull, hu2]

theorem roomsOk_mapSet (m : List (String × Room)) (k : String) (v : Room)
    (h : roomsOk m) (hv : v.members ≠ [] ∧ setHas v.members v.leadUserId = true) :
    roomsOk (mapSet m k v) := by
  intro q hq
  rcases mem_mapSet m k v q hq with h2 | h2
  · rw [h2]; exact hv
  · exact h q h2

/-- Supporting fact for the C1 analysis: `room:create` preserves the room
invariant — the created room starts with its creator as sole member and
lead. -/
theorem roomsOk_roomCreate (st : ServerState) (sock : String)
    (p : CreatePayload) (rid : String) (now : Nat) (h : roomsOk st.rooms) :
    roomsOk (roomCreate st sock p rid now).1.rooms := by
  cases hsu : mapGet st.socketToUser sock with
  | none => simpa [roomCreate, hsu] using h
  | some userId =>
    by_cases hu : (mapGet st.users userId).isNone
    · simpa [roomCreate, hsu, hu] using h
    · by_cases hcap : MAX_ROOMS_PER_USER ≤
          ((st.rooms.map Prod.snd).filter (fun r => r.leadUserId = userId)).length
      · simpa [roomCreate, hsu, hu, hcap] using h
      · have hgoal : roomsOk (mapSet st.rooms rid
            { id := rid, name := escapeHtml p.name, isPrivate := p.isPrivate,
              pinHash := if p.isPrivate && strTruthy p.pin
                         then some (bcryptHash (p.pin.getD "")) else none,
              leadUserId := userId, members := [userId],
              maxMembers := clampMaxMembers p.maxMembers, createdAt := now }) :=
          roomsOk_mapSet _ _ _ h ⟨by simp, by simp [setHas]⟩
        simpa [roomCreate, hsu, hu, hcap] using hgoal

/-- Supporting fact for the C1 analysis: `room:join` preserves the room
invariant — joining adds a member and never touches leadership. -/
theorem roomsOk_roomJoin (st : ServerState) (sock : String) (p : JoinPayload)
    (now : Nat) (h : roomsOk st.rooms) :
    roomsOk (roomJoin st sock p now).1.rooms := by
  cases hsu : mapGet st.socketToUser sock with
  | none => simpa [roomJoin, hsu] using h
  | some userId =>
    by_cases hu : (mapGet st.users userId).isNone
    · simpa [roomJoin, hsu, hu] using h
    · cases hroom : mapGet st.rooms p.roomId with
      | none => simpa [roomJoin, hsu, hu, hroom] using h
      | some room =>
        have hP := h (p.roomId, room) (mapGet_mem _ _ _ hroom)
        have hok : roomsOk (mapSet st.rooms p.roomId
            { room with members := setAdd room.members userId }) :=
          roomsOk_mapSet _ _ _ h
            ⟨setAdd_ne_nil _ _, setHas_setAdd _ _ _ hP.2⟩
        simp only [roomJoin, hsu, hroom]
        split
        · exact h
        · split
          · exact h
          · split
            · exact h
            · split
              · exact h
              · exact hok

/-- Supporting fact for the C1 analysis: `room:joinByPin` preserves the room
invariant (it may overfill the room — see the C2 analysis — but it keeps
the lead a member and the set non-empty). -/
theorem roomsOk_roomJoinByPin (st : ServerState) (sock : String)
    (pin : Option String) (h : roomsOk st.rooms) :
    roomsOk (roomJoinByPin st sock pin).1.rooms := by
  cases hsu : mapGet st.socketToUser sock with
  | none => simpa [roomJoinByPin, hsu] using h
  | some userId =>
    by_cases hu : (mapGet st.users userId).isNone
    · simpa [roomJoinByPin, hsu, hu] using h
    · by_cases hpt : strTruthy pin = true
      · cases hfind : st.rooms.find? (fun q =>
            q.2.isPrivate && q.2.pinHash.isSome &&
            bcryptCompare (pin.getD "") (q.2.pinHash.getD "")) with
        | none => simpa [roomJoinByPin, hsu, hu, hpt, hfind] using h
        | some target =>
          obtain ⟨rid, room⟩ := target
          have hmem : (rid, room) ∈ st.rooms := List.mem_of_find?_eq_some hfind
          have hP := h (rid, room) hmem
          have hok : roomsOk (mapSet st.rooms rid
              { room with members := setAdd room.members userId }) :=
            roomsOk_mapSet _ _ _ h
              ⟨setAdd_ne_nil _ _, setHas_setAdd _ _ _ hP.2⟩
          simpa [roomJoinByPin, hsu, hu, hpt, hfind] using hok
      · simpa [roomJoinByPin, hsu, hu, hpt] using h

theorem roomsOk_mapDelete (m : List (String × Room)) (k : String)
    (h : roomsOk m) : roomsOk (mapDelete m k) :=
  fun q hq => h q (mem_mapDelete m k q hq)

/-- Supporting fact for the C1 analysis: `room:leave` preserves the room
invariant — it deletes the room when the set empties and reassigns
leadership to the first remaining member when the lead leaves. -/
theorem roomsOk_roomLeave (st : ServerState) (sock roomId : String)
    (h : roomsOk st.rooms) : roomsOk (roomLeave st sock roomId).1.rooms := by
  cases hroom : mapGet st.rooms roomId with
  | none => simpa [roomLeave, hroom] using h
  | some room =>
    cases hsu : mapGet st.socketToUser sock with
    | none => simpa [roomLeave, hroom, hsu] using h
    | some userId =>
      have hP := h (roomId, room) (mapGet_mem _ _ _ hroom)
      by_cases hmem : setHas room.members userId = true
      · by_cases hemp : (setDelete room.members userId).isEmpty
        · have hdel : roomsOk (mapDelete st.rooms roomId) :=
            roomsOk_mapDelete _ _ h
          simpa [roomLeave, hroom, hsu, hmem, hemp] using hdel
        · have hne : setDelete room.members userId ≠ [] := by
            intro hh
            rw [hh] at hemp
            simp at hemp
          by_cases hlead : room.leadUserId = userId
          · have hok : roomsOk (mapSet st.rooms roomId
                { room with members := setDelete room.members userId,
                            leadUserId := (setDelete room.members userId).headD "" }) :=
              roomsOk_mapSet _ _ _ h ⟨hne, setHas_headD _ _ hne⟩
            simpa [roomLeave, hroom, hsu, hmem, hemp, hlead] using hok
          · have hkeep : setHas (setDelete room.members userId) room.leadUserId
                = true := by
              rw [setHas_setDelete_ne _ _ _ hlead]
              exact hP.2
            have hok : roomsOk (mapSet st.rooms roomId
                { room with members := setDelete room.members userId }) :=
              roomsOk_mapSet _ _ _ h ⟨hne, hkeep⟩
            simpa [roomLeave, hroom, hsu, hmem, hemp, hlead] using hok
      · simpa [roomLeave, hroom, hsu, hmem] using h

theorem removeUserFromRoom_ok (room : Room) (u : String) (r : Room)
    (hP : room.members ≠ [] ∧ setHas room.members room.leadUserId = true)
    (h : removeUserFromRoom room u = some r) :
    r.members ≠ [] ∧ setHas r.members r.leadUserId = true := by
  unfold removeUserFromRoom at h
  split at h
  · exact absurd h (by simp)
  · rename_i hemp
    have hne : setDelete room.members u ≠ [] := by
      intro hh
      apply hemp
      rw [hh]
      rfl
    split at h
    · injection h with h2
      rw [← h2]
      exact ⟨hne, setHas_headD _ _ hne⟩
    · rename_i hlead
      injection h with h2
      rw [← h2]
      refine ⟨hne, ?_⟩
      show setHas (setDelete room.members u) room.leadUserId = true
      rw [setHas_setDelete_ne _ _ _ hlead]
      exact hP.2

/-- Supporting fact for the C1 analysis: the `disconnect` sweep preserves
the room invariant in every room, deleting emptied rooms and reassigning
leadership where the leaver led. -/
theorem roomsOk_disconnect (st : ServerState) (sock : String)
    (h : roomsOk st.rooms) : roomsOk (disconnect st sock).1.rooms := by
  cases hsu : mapGet st.socketToUser sock with
  | none => simpa [disconnect, hsu] using h
  | some userId =>
    have hsweep : roomsOk (removeFromAllRooms st.rooms userId) := by
      intro q hq
      unfold removeFromAllRooms at hq
      rw [List.mem_filterMap] at hq
      obtain ⟨p, hp, hfp⟩ := hq
      by_cases hm : setHas p.2.members userId = true
      · simp only [hm, if_true] at hfp
        rw [Option.map_eq_some'] at hfp
        obtain ⟨r, hr, hq2⟩ := hfp
        rw [← hq2]
        exact removeUserFromRoom_ok p.2 userId r (h p hp) hr
      · simp only [hm] at hfp
        simp at hfp
        rw [← hfp]
        exact h p hp
    simpa [disconnect, hsu] using hsweep
